import Mathlib

/-!
Verification of the reminder-scheduling / notification-dispatch subsystem of
the research-tracking dashboard (`dashboard/scheduler.py`,
`dashboard/integrations.py`, `dashboard/models.py`).

Modelling conventions:
* Calendar dates are day numbers (`Int`); `date.isoformat()` is modelled as
  the decimal rendering of the day number, and `timedelta(days = d)` as `+ d`.
* Environment / settings values are `String`s, with `""` standing for an
  unset variable (Python falsy).
* A notifier backend is identified by its kind string (`"discord"`,
  `"email"`), as built by `_get_notifiers`.
* Delivery outcomes are driven by an explicit failure oracle; a raising
  `send_*` call is `Except.error`, and the `try/except` blocks of the
  scheduler are the `match` on that result.
* SQL string comparison (SQLite BINARY collation) is codepoint-lexicographic,
  modelled by `charListLeB`; `ORDER BY` is modelled as `List.insertionSort`.
* `hours_worked` (a Python float used only for printing) is modelled as an
  `Int`, rendered with `toString`.
-/

namespace Dashboard

/-- Calendar dates as day numbers. -/
abbrev Date := Int

/-- `date.isoformat()`, modelled as the decimal rendering of the day number. -/
def dateIso (d : Date) : String := toString d

/-- `date.strftime('%A, %B %d, %Y')`, modelled as a rendering of the day
number (the exact text is irrelevant to every property proved below). -/
def dateLong (d : Date) : String := toString d

/-- Codepoint-lexicographic `≤` on character lists: SQLite BINARY collation
(UTF-8 byte order coincides with codepoint order). -/
def charListLeB : List Char → List Char → Bool
  | [], _ => true
  | _ :: _, [] => false
  | a :: as, b :: bs => if a = b then charListLeB as bs else decide (a < b)

/-- SQL comparison of two string column values. -/
def strLeB (a b : String) : Bool := charListLeB a.data b.data

/-- Python `str.title()` on a word list: a letter is uppercased when the
previous character is not a letter, lowercased otherwise. -/
def pythonTitleAux : List Char → Bool → List Char
  | [], _ => []
  | c :: cs, prevAlpha =>
    if c.isAlpha then
      (if prevAlpha then c.toLower else c.toUpper) :: pythonTitleAux cs true
    else c :: pythonTitleAux cs false

/-- Python `str.title()`. -/
def pythonTitle (s : String) : String := ⟨pythonTitleAux s.data false⟩

/-- Python `str.strip()`: drop leading and trailing whitespace. -/
def pythonStripL (l : List Char) : List Char :=
  ((l.dropWhile Char.isWhitespace).reverse.dropWhile Char.isWhitespace).reverse

/-- Python `str.strip()` on strings. -/
def pythonStrip (s : String) : String := ⟨pythonStripL s.data⟩

/-- Python `str.split(sep)` for a one-character separator, on char lists. -/
def splitCharAux (sep : Char) : List Char → List Char → List String
  | [], acc => [⟨acc.reverse⟩]
  | c :: cs, acc =>
    if c = sep then ⟨acc.reverse⟩ :: splitCharAux sep cs []
    else splitCharAux sep cs (c :: acc)

/-- Python `s.split(",")` (modelled for the one-character separators the
source uses). -/
def splitChar (sep : Char) (s : String) : List String :=
  splitCharAux sep s.data []

/-- String concatenation of a list of parts (Python f-string assembly). -/
def concatParts (l : List String) : String := ⟨(l.map String.data).flatten⟩

/-- `p` occurs as a contiguous substring of `s`. -/
def strIn (p s : String) : Prop := p.data <:+: s.data

instance (p s : String) : Decidable (strIn p s) := by
  unfold strIn; infer_instance

/-- Python `str(x)` for an optional integer (`None` prints as `"None"`). -/
def optIntStr : Option Int → String
  | some n => toString n
  | none => "None"

-- ============================================================
-- Data model (`dashboard/models.py`)
-- ============================================================

/-- `models.Event` (the fields the notification subsystem reads). -/
structure Event where
  title : String
  category : String
  website : String := ""
  association : String := ""
  relevance_tags : String := ""
  location : String := ""
  submission_deadline : Option Date := none
  notification_date : Option Date := none
  camera_ready_date : Option Date := none
  event_start_date : Option Date := none
  event_end_date : Option Date := none
  description : String := ""
  notes : String := ""
  status : String := "upcoming"
  deriving DecidableEq, Repr

/-- `Event.days_until_deadline` relative to an explicit `today`. -/
def Event.days_until_deadline (today : Date) (e : Event) : Option Int :=
  e.submission_deadline.map (fun dl => dl - today)

/-- `models.Todo` (the fields the notification subsystem reads). -/
structure Todo where
  title : String
  priority : String := "medium"
  due_date : Option Date := none
  status : String := "pending"
  deriving DecidableEq, Repr

/-- `models.Researcher` (the fields the vault export reads). -/
structure Researcher where
  name : String
  website : String := ""
  affiliation : String := ""
  research_areas : String := ""
  notes : String := ""
  deriving DecidableEq, Repr

/-- `models.DailyLog` (the fields the vault export reads). -/
structure DailyLog where
  log_date : Date
  content : String := ""
  hours_worked : Int := 0
  mood : String := ""
  tags : String := ""
  deriving DecidableEq, Repr

-- ============================================================
-- Scheduler (`dashboard/scheduler.py`)
-- ============================================================

/-- The environment variables `_get_notifiers` reads (`""` = unset). -/
structure Config where
  discord_webhook_url : String := ""
  smtp_server : String := ""
  smtp_username : String := ""
  smtp_password : String := ""
  email_to : String := ""
  deriving DecidableEq, Repr

/-- `_get_notifiers`: the discord backend is active iff the webhook URL is
non-empty; the email backend iff all four SMTP credentials are non-empty. -/
def getNotifiers (cfg : Config) : List String :=
  (if cfg.discord_webhook_url ≠ "" then ["discord"] else []) ++
  (if cfg.smtp_server ≠ "" ∧ cfg.smtp_username ≠ "" ∧
      cfg.smtp_password ≠ "" ∧ cfg.email_to ≠ "" then ["email"] else [])

/-- SQL `ORDER BY submission_deadline` comparison on the deadline column
(SQLite default: NULLs first under ASC; the digest query filters NULLs out
before sorting, so the NULL branch is never reached there). -/
def optDateLeB : Option Date → Option Date → Bool
  | none, _ => true
  | some _, none => false
  | some a, some b => decide (a ≤ b)

/-- Row order of the digest's event query. -/
def eventLe (a b : Event) : Prop :=
  optDateLeB a.submission_deadline b.submission_deadline = true

instance : DecidableRel eventLe := fun a b => by
  unfold eventLe; infer_instance

/-- `Todo.due_date.asc().nullslast()` strict comparison. -/
def optDateLtNullsLastB : Option Date → Option Date → Bool
  | some a, some b => decide (a < b)
  | some _, none => true
  | none, _ => false

/-- Row order of the digest's todo query: due date ascending with NULLs
last, ties broken by the raw `priority` string ascending. -/
def todoLe (a b : Todo) : Prop :=
  (optDateLtNullsLastB a.due_date b.due_date ||
    (a.due_date == b.due_date && strLeB a.priority b.priority)) = true

instance : DecidableRel todoLe := fun a b => by
  unfold todoLe; infer_instance

/-- The event query of `_send_daily_digest`: non-NULL deadline within
`[today, today + maxDays]`, ordered by deadline ascending. -/
def upcomingEvents (events : List Event) (maxDays : Int) (today : Date) :
    List Event :=
  List.insertionSort eventLe (events.filter fun e =>
    match e.submission_deadline with
    | none => false
    | some dl => decide (today ≤ dl) && decide (dl ≤ today + maxDays))

/-- The todo query of `_send_daily_digest`: status `pending` or
`in_progress`, ordered by `(due_date asc nulls last, priority)`. -/
def pendingTodos (todos : List Todo) : List Todo :=
  List.insertionSort todoLe (todos.filter fun t =>
    t.status == "pending" || t.status == "in_progress")

/-- One iteration of `_send_daily_digest`'s delivery loop: attempt
`send_daily_digest(upcoming, pending)` on one backend; a raising delivery is
caught (`except`) and its kind logged. -/
def digestStep (u : List Event) (p : List Todo) (fails : String → Bool)
    (acc : List (String × List Event × List Todo) × List String)
    (kind : String) :
    Except String (List (String × List Event × List Todo) × List String) :=
  match (if fails kind then Except.error "DeliveryError"
         else Except.ok ()) with
  | Except.ok _ => Except.ok (acc.1 ++ [(kind, u, p)], acc.2)
  | Except.error _ => Except.ok (acc.1 ++ [(kind, u, p)], acc.2 ++ [kind])

/-- `_send_daily_digest`: returns the list of delivery attempts
`(kind, upcoming, pending)` and the list of kinds whose delivery raised
(caught and logged in the source).  An uncaught exception would surface as
`Except.error`. -/
def digestTick (cfg : Config) (events : List Event) (todos : List Todo)
    (rd : List Int) (today : Date) (fails : String → Bool) :
    Except String (List (String × List Event × List Todo) × List String) :=
  let notifiers := getNotifiers cfg
  if notifiers.isEmpty then Except.ok ([], [])
  else do
    let maxDays ← match rd.max? with
      | some m => Except.ok (m + 7)
      | none => Except.error "ValueError: max() arg is an empty sequence"
    let upcoming := upcomingEvents events maxDays today
    let pending := pendingTodos todos
    notifiers.foldlM (digestStep upcoming pending fails) ([], [])

/-- The full list of `(event, backend)` reminder attempts `_check_deadlines`
makes: for each configured offset, the events whose deadline is exactly
`today + d`, crossed with every active backend. -/
def checkAttempts (events : List Event) (notifiers : List String)
    (rd : List Int) (today : Date) : List (Event × String) :=
  rd.flatMap fun d =>
    (events.filter fun e => e.submission_deadline == some (today + d)).flatMap
      fun e => notifiers.map fun kind => (e, kind)

/-- Innermost statement of `_check_deadlines`'s loop nest: attempt
`send_deadline_reminder(event)` on one backend; a raising delivery is caught
(`except`) and the `(event, kind)` pair logged. -/
def checkStep (fails : Event → String → Bool) (e : Event)
    (acc : List (Event × String) × List (Event × String)) (kind : String) :
    Except String (List (Event × String) × List (Event × String)) :=
  match (if fails e kind then Except.error "DeliveryError"
         else Except.ok ()) with
  | Except.ok _ => Except.ok (acc.1 ++ [(e, kind)], acc.2)
  | Except.error _ => Except.ok (acc.1 ++ [(e, kind)], acc.2 ++ [(e, kind)])

/-- `for kind, notifier in notifiers:` for a fixed matching event. -/
def checkEventFold (fails : Event → String → Bool) (notifiers : List String)
    (acc : List (Event × String) × List (Event × String)) (e : Event) :
    Except String (List (Event × String) × List (Event × String)) :=
  notifiers.foldlM (checkStep fails e) acc

/-- `for days in reminder_days:` body: query the events whose deadline is
exactly `today + d` and fan each out to every backend. -/
def checkDayFold (fails : Event → String → Bool) (notifiers : List String)
    (events : List Event) (today : Date)
    (acc : List (Event × String) × List (Event × String)) (d : Int) :
    Except String (List (Event × String) × List (Event × String)) :=
  (events.filter fun e => e.submission_deadline == some (today + d)).foldlM
    (checkEventFold fails notifiers) acc

/-- `_check_deadlines`: returns the list of `(event, backend)` delivery
attempts and the sub-list of attempts whose delivery raised (caught and
logged in the source). -/
def checkTick (cfg : Config) (events : List Event) (rd : List Int)
    (today : Date) (fails : Event → String → Bool) :
    Except String (List (Event × String) × List (Event × String)) :=
  let notifiers := getNotifiers cfg
  if notifiers.isEmpty then Except.ok ([], [])
  else rd.foldlM (checkDayFold fails notifiers events today) ([], [])

-- ============================================================
-- Discord notifier (`dashboard/integrations.py`, `DiscordNotifier`)
-- ============================================================

/-- A Discord embed, as assembled by `DiscordNotifier` (the boolean
`inline` flags of the source are presentation-only and omitted). -/
structure Embed where
  title : String := ""
  description : String := ""
  color : Nat := 0
  url : Option String := none
  fieldList : List (String × String) := []
  deriving DecidableEq, Repr

/-- `DiscordNotifier.send_deadline_reminder`: the embed that is posted.
With a `None` deadline the source raises (`None <= 3`), modelled as
`Except.error`. -/
def discordSendDeadlineReminder (today : Date) (e : Event) :
    Except String Embed :=
  match e.submission_deadline with
  | none => Except.error "TypeError"
  | some dl =>
    let days := dl - today
    let color := if days ≤ 3 then 0xFF0000 else 0xFFAA00
    let base : Embed :=
      { title := "Deadline Reminder: " ++ e.title
        color := color
        fieldList := [("Category", pythonTitle e.category),
                      ("Days Left", toString days),
                      ("Deadline", dateIso dl)] }
    let withUrl := if e.website ≠ "" then { base with url := some e.website }
                   else base
    Except.ok (if e.relevance_tags ≠ "" then
                 { withUrl with
                   fieldList := withUrl.fieldList ++
                     [("Tags", e.relevance_tags)] }
               else withUrl)

/-- One line of the Discord digest's deadline section.  With a `None`
deadline the source raises (`None.isoformat()`), modelled as
`Except.error`. -/
def discordDigestLine (today : Date) (e : Event) : Except String String :=
  match e.submission_deadline with
  | none => Except.error "AttributeError"
  | some dl =>
    Except.ok ("**" ++ e.title ++ "** — " ++ toString (dl - today) ++
      " days left (" ++ dateIso dl ++ ")")

/-- `DiscordNotifier.send_daily_digest`: `none` models the early return that
posts nothing (empty embed list); `some (content, embeds)` the posted
message. -/
def discordSendDailyDigest (today : Date) (upcoming : List Event)
    (todos : List Todo) : Except String (Option (String × List Embed)) := do
  let dlLines ← (upcoming.take 10).mapM (discordDigestLine today)
  let embeds :=
    (if upcoming.isEmpty then [] else
      [{ title := "Upcoming Deadlines"
         description := String.intercalate "\n" dlLines
         color := 0xFFAA00 : Embed }]) ++
    (if todos.isEmpty then [] else
      [{ title := "Pending Todos (" ++ toString todos.length ++ ")"
         description := String.intercalate "\n"
           ((todos.take 10).map fun t => "• " ++ t.title)
         color := 0x5865F2 : Embed }])
  if embeds.isEmpty then pure none
  else pure (some ("**Daily Digest — " ++ dateIso today ++ "**", embeds))

-- ============================================================
-- Email notifier (`dashboard/integrations.py`, `EmailNotifier`)
-- ============================================================

/-- The parts whose concatenation is the HTML body of
`EmailNotifier.send_deadline_reminder` (template whitespace condensed;
single quotes written `\x27`). -/
def emailReminderParts (today : Date) (e : Event) (dl : Date) :
    List String :=
  let color := if dl - today ≤ 3 then "#dc2626" else "#f59e0b"
  ["\n<div style=\"font-family: sans-serif; max-width: 600px; margin: 0 auto;\">\n<div style=\"background: ",
   color,
   "; color: white; padding: 16px; border-radius: 8px 8px 0 0;\">\n<h2 style=\"margin:0;\">Deadline Reminder</h2>\n</div>\n<div style=\"border: 1px solid #e5e7eb; padding: 16px; border-radius: 0 0 8px 8px;\">\n<h3>",
   e.title,
   "</h3>\n<p><strong>Deadline:</strong> ",
   dateIso dl,
   "</p>\n<p><strong>Days remaining:</strong> ",
   toString (dl - today),
   "</p>\n<p><strong>Category:</strong> ",
   pythonTitle e.category,
   "</p>\n",
   (if e.website ≠ "" then
      "<p><a href=\x27" ++ e.website ++ "\x27>Visit website</a></p>"
    else ""),
   "\n</div>\n</div>\n"]

/-- `EmailNotifier.send_deadline_reminder`: subject and HTML body.  With a
`None` deadline the source raises (`None <= 3`), modelled as
`Except.error`. -/
def emailSendDeadlineReminder (today : Date) (e : Event) :
    Except String (String × String) :=
  match e.submission_deadline with
  | none => Except.error "TypeError"
  | some dl =>
    Except.ok ("[PPML Dashboard] Deadline: " ++ e.title ++ " (" ++
        toString (dl - today) ++ " days left)",
      concatParts (emailReminderParts today e dl))

/-- One `<tr>` row of the email digest's deadline table. -/
def emailDeadlineRow (today : Date) (e : Event) : Except String String :=
  match e.submission_deadline with
  | none => Except.error "TypeError"
  | some dl =>
    let days := dl - today
    let color := if days ≤ 3 then "#dc2626"
                 else if days ≤ 7 then "#f59e0b" else "#10b981"
    let link := if e.website ≠ "" then
                  "<a href=\x27" ++ e.website ++ "\x27>" ++ e.title ++ "</a>"
                else e.title
    Except.ok ("<tr><td>" ++ link ++ "</td><td>" ++ e.category ++
      "</td><td style=\x27color:" ++ color ++
      ";font-weight:bold;\x27>" ++ toString days ++ " days</td><td>" ++
      dateIso dl ++ "</td></tr>")

/-- One `<li>` item of the email digest's todo list. -/
def emailTodoItem (t : Todo) : String :=
  let icon := if t.priority = "high" then "🔴"
              else if t.priority = "medium" then "🟡"
              else if t.priority = "low" then "🟢" else "⚪"
  let due := match t.due_date with
    | some d => " — due " ++ dateIso d
    | none => ""
  "<li>" ++ icon ++ " " ++ t.title ++ due ++ "</li>"

/-- The parts whose concatenation is the HTML body of
`EmailNotifier.send_daily_digest` (template whitespace condensed). -/
def emailDigestParts (today : Date) (deadlineRows todoItems : String)
    (nTodos : Nat) : List String :=
  ["\n<div style=\"font-family: sans-serif; max-width: 700px; margin: 0 auto;\">\n<div style=\"background: #4f46e5; color: white; padding: 16px; border-radius: 8px 8px 0 0;\">\n<h2 style=\"margin:0;\">PPML/FHE Dashboard — Daily Digest</h2>\n<p style=\"margin:4px 0 0 0; opacity:0.8;\">",
   dateLong today,
   "</p>\n</div>\n<div style=\"border: 1px solid #e5e7eb; padding: 16px;\">\n<h3>Upcoming Deadlines</h3>\n",
   (if deadlineRows ≠ "" then
      "<table style=\x27width:100%;border-collapse:collapse;\x27><tr style=\x27background:#f3f4f6;\x27><th style=\x27text-align:left;padding:8px;\x27>Event</th><th style=\x27padding:8px;\x27>Type</th><th style=\x27padding:8px;\x27>Remaining</th><th style=\x27padding:8px;\x27>Date</th></tr>" ++
        deadlineRows ++ "</table>"
    else "<p>No upcoming deadlines.</p>"),
   "\n</div>\n<div style=\"border: 1px solid #e5e7eb; padding: 16px; border-radius: 0 0 8px 8px;\">\n<h3>Pending Tasks (",
   toString nTodos,
   ")</h3>\n",
   (if todoItems ≠ "" then "<ul>" ++ todoItems ++ "</ul>"
    else "<p>No pending tasks.</p>"),
   "\n</div>\n</div>\n"]

/-- `deadline_rows += ...` for one event of the email digest. -/
def emailRowStep (today : Date) (acc : String) (e : Event) :
    Except String String :=
  (emailDeadlineRow today e).map fun row => acc ++ row

/-- `EmailNotifier.send_daily_digest`: subject and HTML body (deadline rows
capped at 15, todo items at 10, total todo count still reported). -/
def emailSendDailyDigest (today : Date) (upcoming : List Event)
    (todos : List Todo) : Except String (String × String) := do
  let rows ← (upcoming.take 15).foldlM (emailRowStep today) ""
  let items := (todos.take 10).foldl (fun acc t => acc ++ emailTodoItem t) ""
  pure ("[PPML Dashboard] Daily Digest — " ++ dateIso today,
    concatParts (emailDigestParts today rows items todos.length))

-- ============================================================
-- Obsidian vault export (`dashboard/integrations.py`, `ObsidianExport`)
-- ============================================================

/-- The characters `export_event`'s title sanitization keeps:
`c.isalnum() or c in (' ', '-', '_')` (`isalnum` modelled over ASCII). -/
def keepChar (c : Char) : Bool :=
  c.isAlphanum || c = ' ' || c = '-' || c = '_'

/-- `export_event`'s file-name stem: keep the allowed characters, then
Python `.strip()`. -/
def eventSafeTitle (title : String) : String :=
  pythonStrip ⟨title.data.filter keepChar⟩

/-- Vault-relative path of an exported event
(`PPML-FHE-Dashboard/Events/<Category>s/<safe_title>.md`). -/
def eventFilePath (e : Event) : String :=
  "PPML-FHE-Dashboard/Events/" ++ pythonTitle e.category ++ "s/" ++
    eventSafeTitle e.title ++ ".md"

/-- `export_researcher`'s file-name stem: the raw name with every `/`
replaced by `-` (no other sanitization in the source). -/
def researcherSafeName (name : String) : String :=
  ⟨name.data.map fun c => if c = '/' then '-' else c⟩

/-- Vault-relative path of an exported researcher. -/
def researcherFilePath (r : Researcher) : String :=
  "PPML-FHE-Dashboard/Researchers/" ++ researcherSafeName r.name ++ ".md"

/-- Vault-relative path of an exported daily log. -/
def logFilePath (l : DailyLog) : String :=
  "PPML-FHE-Dashboard/Daily Notes/" ++ dateIso l.log_date ++ ".md"

/-- The `tags:` frontmatter lines rendered from a comma-separated tag
string. -/
def tagLines (tags : String) : List String :=
  (splitChar ',' tags).map fun t => "  - " ++ pythonStrip t

/-- Document content written by `export_event` (frontmatter then body,
joined exactly as in the source: `"\n".join(frontmatter) +
"\n".join(body)`). -/
def eventDoc (e : Event) : String :=
  let frontmatter :=
    ["---", "title: \"" ++ e.title ++ "\"", "category: " ++ e.category,
     "status: " ++ e.status] ++
    (if e.website ≠ "" then ["website: \"" ++ e.website ++ "\""] else []) ++
    (match e.submission_deadline with
     | some d => ["submission_deadline: " ++ dateIso d]
     | none => []) ++
    (match e.event_start_date with
     | some d => ["event_start: " ++ dateIso d]
     | none => []) ++
    (match e.event_end_date with
     | some d => ["event_end: " ++ dateIso d]
     | none => []) ++
    (if e.relevance_tags ≠ "" then "tags:" :: tagLines e.relevance_tags
     else []) ++
    (if e.location ≠ "" then ["location: " ++ e.location] else []) ++
    ["---", ""]
  let body :=
    ["# " ++ e.title, ""] ++
    (if e.website ≠ "" then
       ["**Website:** [" ++ e.website ++ "](" ++ e.website ++ ")"]
     else []) ++
    (if e.association ≠ "" then ["**Association:** " ++ e.association]
     else []) ++
    (if e.location ≠ "" then ["**Location:** " ++ e.location] else []) ++
    [""] ++
    (if e.submission_deadline.isSome || e.notification_date.isSome ||
        e.event_start_date.isSome then
       ["## Key Dates"] ++
       (match e.submission_deadline with
        | some d => ["- **Submission Deadline:** " ++ dateIso d]
        | none => []) ++
       (match e.notification_date with
        | some d => ["- **Notification:** " ++ dateIso d]
        | none => []) ++
       (match e.camera_ready_date with
        | some d => ["- **Camera Ready:** " ++ dateIso d]
        | none => []) ++
       (match e.event_start_date with
        | some d => ["- **Event Date:** " ++ dateIso d ++
            (match e.event_end_date with
             | some ed => " to " ++ dateIso ed
             | none => "")]
        | none => []) ++
       [""]
     else []) ++
    (if e.description ≠ "" then ["## Description", e.description, ""]
     else []) ++
    (if e.notes ≠ "" then ["## Notes", e.notes, ""] else [])
  String.intercalate "\n" frontmatter ++ String.intercalate "\n" body

/-- Document content written by `export_researcher`. -/
def researcherDoc (r : Researcher) : String :=
  let lines :=
    ["---", "name: \"" ++ r.name ++ "\"",
     "affiliation: \"" ++ r.affiliation ++ "\""] ++
    (if r.research_areas ≠ "" then "tags:" :: tagLines r.research_areas
     else []) ++
    ["---", "", "# " ++ r.name, ""] ++
    (if r.affiliation ≠ "" then ["**Affiliation:** " ++ r.affiliation]
     else []) ++
    (if r.website ≠ "" then
       ["**Website:** [" ++ r.website ++ "](" ++ r.website ++ ")"]
     else []) ++
    (if r.research_areas ≠ "" then
       ["**Research Areas:** " ++ r.research_areas]
     else []) ++
    (if r.notes ≠ "" then ["", "## Notes", r.notes] else [])
  String.intercalate "\n" lines

/-- Document content written by `export_daily_log`. -/
def logDoc (l : DailyLog) : String :=
  let lines :=
    ["---", "date: " ++ dateIso l.log_date,
     "hours_worked: " ++ toString l.hours_worked] ++
    (if l.mood ≠ "" then ["mood: " ++ l.mood] else []) ++
    (if l.tags ≠ "" then "tags:" :: tagLines l.tags else []) ++
    ["---", "", "# " ++ dateIso l.log_date, ""] ++
    (if l.hours_worked ≠ 0 then ["**Hours worked:** " ++ toString l.hours_worked]
     else []) ++
    (if l.mood ≠ "" then ["**Mood:** " ++ l.mood] else []) ++
    ["", l.content]
  String.intercalate "\n" lines

/-- The index document: quick links plus the sorted set of event
categories (`sorted(set(e.category for e in events))`). -/
def indexDoc (events : List Event) : String :=
  let categories :=
    List.insertionSort (fun a b => strLeB a b = true)
      (events.map Event.category).dedup
  String.intercalate "\n"
    (["# PPML/FHE Research Dashboard", "", "## Quick Links", "- [[Events]]",
      "- [[Researchers]]", "- [[Daily Notes]]", "", "## Event Categories"] ++
     categories.map fun cat => "- [[Events/" ++ pythonTitle cat ++ "s/]]")

/-- The `(path, content)` pairs one `export_all` run writes, in write
order. -/
def exportOutputs (events : List Event) (researchers : List Researcher)
    (logs : List DailyLog) : List (String × String) :=
  events.map (fun e => (eventFilePath e, eventDoc e)) ++
  researchers.map (fun r => (researcherFilePath r, researcherDoc r)) ++
  logs.map (fun l => (logFilePath l, logDoc l)) ++
  [("PPML-FHE-Dashboard/Index.md", indexDoc events)]

/-- The vault file system: path to file content. -/
abbrev FS := String → Option String

/-- `_write_file`: overwrite one path. -/
def writeFile (fs : FS) (w : String × String) : FS :=
  fun p => if p = w.1 then some w.2 else fs p

/-- `export_all`: write every output document over the current vault
state. -/
def exportAll (events : List Event) (researchers : List Researcher)
    (logs : List DailyLog) (fs : FS) : FS :=
  (exportOutputs events researchers logs).foldl writeFile fs

-- ============================================================
-- Spec-side comparison definitions (refinement targets, from the
-- spec's words, to be compared with the source-derived definitions)
-- ============================================================

/-- From the spec's words: the numeric rank of a todo priority
(high before medium before low). -/
def specPriorityRank (p : String) : Nat :=
  if p = "high" then 3 else if p = "medium" then 2
  else if p = "low" then 1 else 0

/-- From the spec's words: todo order "due_date ascending, nulls last,
priority descending (high before medium before low)". -/
def specTodoLe (a b : Todo) : Prop :=
  optDateLtNullsLastB a.due_date b.due_date = true ∨
    (a.due_date = b.due_date ∧
      specPriorityRank b.priority ≤ specPriorityRank a.priority)

instance : DecidableRel specTodoLe := fun a b => by
  unfold specTodoLe; infer_instance

/-- From the spec's words: file-name sanitization that keeps exactly the
alphanumeric characters, spaces, hyphens and underscores and drops every
other character. -/
def specSanitize (s : String) : String := ⟨s.data.filter keepChar⟩

/-- From the amended claim's words: drop trailing whitespace (stated by
direct recursion, independently of the source's reverse-based strip). -/
def dropTrailSpaces : List Char → List Char
  | [] => []
  | c :: cs =>
    match dropTrailSpaces cs with
    | [] => if c.isWhitespace then [] else [c]
    | rest => c :: rest

/-- From the amended claim's words: the event file-name stem — keep exactly
the allowed characters of the title, then trim surrounding whitespace. -/
def specEventStem (t : String) : List Char :=
  dropTrailSpaces ((specSanitize t).data.dropWhile Char.isWhitespace)

/-- From the amended claim's words: replace each `/` by `-` and keep every
other character unchanged (stated by direct recursion). -/
def specSlashRename : List Char → List Char
  | [] => []
  | c :: cs => (if c = '/' then '-' else c) :: specSlashRename cs

-- ============================================================
-- Concrete data for witnesses and counterexamples
-- ============================================================

/-- A configuration with only the Discord webhook set. -/
def cfgDiscord : Config := { discord_webhook_url := "https://example.test/hook" }

/-- An event whose deadline is day 17. -/
def evCCS : Event :=
  { title := "CCS", category := "conference", submission_deadline := some 17 }

/-- An event whose deadline is day 20, with a website and tags. -/
def evNDSS : Event :=
  { title := "NDSS", category := "conference",
    website := "https://ndss.example", relevance_tags := "FHE, PPML",
    submission_deadline := some 20 }

/-- An event with non-empty relevance tags whose tag text occurs nowhere
else in its fields. -/
def evTagged : Event :=
  { title := "CCS", category := "conference",
    submission_deadline := some 17, relevance_tags := "zztag77" }

/-- A medium-priority pending todo with no due date. -/
def tdMedium : Todo := { title := "write intro" }

/-- A low-priority pending todo with no due date. -/
def tdLow : Todo := { title := "tidy refs", priority := "low" }

/-- A researcher whose name holds a character the spec's sanitization would
drop. -/
def rsDot : Researcher := { name := "Dr. X" }

/-- The body of a successful email delivery (`""` for a raising one). -/
def emailBodyOf (r : Except String (String × String)) : String :=
  match r with
  | Except.ok p => p.2
  | Except.error _ => ""

/-- A configuration with no credential set. -/
def cfgNone : Config := {}

/-- All human-readable text of a posted Discord digest (content, embed
titles and descriptions), `""` when nothing was posted. -/
def discordPayloadText (r : Except String (Option (String × List Embed))) :
    String :=
  match r with
  | Except.ok (some p) =>
    String.intercalate "\n"
      (p.1 :: (p.2.map Embed.title ++ p.2.map Embed.description))
  | _ => ""

-- ============================================================
-- Helper lemmas: tick characterization
-- ============================================================

lemma foldlM_digestStep (u : List Event) (p : List Todo)
    (fails : String → Bool) :
    ∀ (ns : List String)
      (acc : List (String × List Event × List Todo) × List String),
      ns.foldlM (digestStep u p fails) acc =
        Except.ok (acc.1 ++ ns.map (fun k => (k, u, p)),
                   acc.2 ++ ns.filter fails) := by
  intro ns
  induction ns with
  | nil => intro acc; simp [List.foldlM_nil]; rfl
  | cons k ns ih =>
    intro acc
    rw [List.foldlM_cons]
    cases hk : fails k with
    | true =>
      simp only [digestStep, hk, if_true, Bind.bind, Except.bind]
      rw [ih]
      simp [List.filter_cons, hk, List.append_assoc]
    | false =>
      simp only [digestStep, hk, Bind.bind, Except.bind]
      simp only [Bool.false_eq_true, if_false]
      rw [ih]
      simp [List.filter_cons, hk, List.append_assoc]

lemma foldlM_checkStep (fails : Event → String → Bool) (e : Event) :
    ∀ (ns : List String)
      (acc : List (Event × String) × List (Event × String)),
      ns.foldlM (checkStep fails e) acc =
        Except.ok (acc.1 ++ ns.map (fun k => (e, k)),
          acc.2 ++ (ns.map (fun k => (e, k))).filter
            (fun a => fails a.1 a.2)) := by
  intro ns
  induction ns with
  | nil => intro acc; simp [List.foldlM_nil]; rfl
  | cons k ns ih =>
    intro acc
    rw [List.foldlM_cons]
    cases hk : fails e k with
    | true =>
      simp only [checkStep, hk, if_true, Bind.bind, Except.bind]
      rw [ih]
      simp [List.filter_cons, hk, List.append_assoc]
    | false =>
      simp only [checkStep, hk, Bind.bind, Except.bind]
      simp only [Bool.false_eq_true, if_false]
      rw [ih]
      simp [List.filter_cons, hk, List.append_assoc]

lemma foldlM_checkEventFold (fails : Event → String → Bool)
    (ns : List String) :
    ∀ (l : List Event) (acc : List (Event × String) × List (Event × String)),
      l.foldlM (checkEventFold fails ns) acc =
        Except.ok (acc.1 ++ l.flatMap (fun e => ns.map (fun k => (e, k))),
          acc.2 ++ (l.flatMap (fun e => ns.map (fun k => (e, k)))).filter
            (fun a => fails a.1 a.2)) := by
  intro l
  induction l with
  | nil => intro acc; simp [List.foldlM_nil]; rfl
  | cons e l ih =>
    intro acc
    rw [List.foldlM_cons]
    simp only [checkEventFold, foldlM_checkStep, Bind.bind, Except.bind]
    rw [ih]
    simp [List.flatMap_cons, List.filter_append, List.append_assoc]

lemma foldlM_checkDayFold (fails : Event → String → Bool) (ns : List String)
    (events : List Event) (today : Date) :
    ∀ (rd : List Int) (acc : List (Event × String) × List (Event × String)),
      rd.foldlM (checkDayFold fails ns events today) acc =
        Except.ok (acc.1 ++ checkAttempts events ns rd today,
          acc.2 ++ (checkAttempts events ns rd today).filter
            (fun a => fails a.1 a.2)) := by
  intro rd
  induction rd with
  | nil => intro acc; simp [List.foldlM_nil, checkAttempts]; rfl
  | cons d rd ih =>
    intro acc
    rw [List.foldlM_cons]
    simp only [checkDayFold, foldlM_checkEventFold, Bind.bind, Except.bind]
    rw [ih]
    simp [checkAttempts, List.flatMap_cons, List.filter_append,
      List.append_assoc]

lemma checkTick_eq (cfg : Config) (events : List Event) (rd : List Int)
    (today : Date) (fails : Event → String → Bool) :
    checkTick cfg events rd today fails =
      Except.ok (checkAttempts events (getNotifiers cfg) rd today,
        (checkAttempts events (getNotifiers cfg) rd today).filter
          (fun a => fails a.1 a.2)) := by
  unfold checkTick
  cases h : (getNotifiers cfg).isEmpty with
  | true =>
    rw [List.isEmpty_iff] at h
    simp [h, checkAttempts]
  | false =>
    simp only [foldlM_checkDayFold]
    simp only [List.nil_append, h, Bool.false_eq_true, if_false]

lemma digestTick_eq (cfg : Config) (events : List Event) (todos : List Todo)
    (rd : List Int) (today : Date) (fails : String → Bool) (m : Int)
    (h : rd.max? = some m) :
    digestTick cfg events todos rd today fails =
      Except.ok ((getNotifiers cfg).map
          (fun k => (k, upcomingEvents events (m + 7) today,
            pendingTodos todos)),
        (getNotifiers cfg).filter fails) := by
  unfold digestTick
  cases hn : (getNotifiers cfg).isEmpty with
  | true =>
    rw [List.isEmpty_iff] at hn
    simp [hn]
  | false =>
    simp only [h, Bind.bind, Except.bind, foldlM_digestStep]
    simp only [List.nil_append, hn, Bool.false_eq_true, if_false]

-- ============================================================
-- Helper definitions and lemmas: file-system folds
-- ============================================================

/-- The content of the last write to path `p` in a write list, if any. -/
def lastContent : List (String × String) → String → Option String
  | [], _ => none
  | w :: ws, p =>
    match lastContent ws p with
    | some c => some c
    | none => if p = w.1 then some w.2 else none

lemma foldl_writeFile_apply :
    ∀ (ws : List (String × String)) (fs : FS) (p : String),
      (ws.foldl writeFile fs) p =
        match lastContent ws p with
        | some c => some c
        | none => fs p := by
  intro ws
  induction ws with
  | nil => intro fs p; rfl
  | cons w ws ih =>
    intro fs p
    rw [List.foldl_cons, ih]
    cases h : lastContent ws p with
    | some c =>
      have hcons : lastContent (w :: ws) p = some c := by
        unfold lastContent; rw [h]
      rw [hcons]
    | none =>
      have hcons : lastContent (w :: ws) p =
          if p = w.1 then some w.2 else none := by
        unfold lastContent; rw [h]
      rw [hcons]
      by_cases hp : p = w.1 <;> simp [hp, writeFile]

lemma dropTrail_eq_strip : ∀ x : List Char,
    (x.reverse.dropWhile Char.isWhitespace).reverse = dropTrailSpaces x := by
  intro x
  induction x with
  | nil => rfl
  | cons c cs ih =>
    rw [List.reverse_cons, List.dropWhile_append]
    cases h : (cs.reverse.dropWhile Char.isWhitespace).isEmpty with
    | true =>
      have hnil : cs.reverse.dropWhile Char.isWhitespace = [] := by
        rwa [List.isEmpty_iff] at h
      have hdt : dropTrailSpaces cs = [] := by
        rw [← ih, hnil]; rfl
      simp only [h, if_true]
      show (List.dropWhile Char.isWhitespace [c]).reverse = _
      unfold dropTrailSpaces
      rw [hdt]
      cases hc : c.isWhitespace with
      | true => simp [List.dropWhile, hc]
      | false => simp [List.dropWhile, hc]
    | false =>
      have hne : cs.reverse.dropWhile Char.isWhitespace ≠ [] := by
        intro hh
        rw [hh] at h
        simp at h
      simp only [h, Bool.false_eq_true, if_false]
      rw [List.reverse_append]
      cases hdt : dropTrailSpaces cs with
      | nil =>
        exact absurd (by rw [← List.reverse_eq_nil_iff, ih, hdt]) hne
      | cons d ds =>
        show [c].reverse ++ (cs.reverse.dropWhile Char.isWhitespace).reverse =
          dropTrailSpaces (c :: cs)
        unfold dropTrailSpaces
        rw [hdt, ih, hdt]
        rfl

lemma map_eq_specSlashRename : ∀ x : List Char,
    x.map (fun c => if c = '/' then '-' else c) = specSlashRename x := by
  intro x
  induction x with
  | nil => rfl
  | cons c cs ih => simp only [List.map_cons, specSlashRename, ih]

-- ============================================================
-- Helper lemmas: counting reminder attempts
-- ============================================================

lemma count_pair_map (ns : List String) (e' e : Event) (b : String) :
    ((ns.map fun k => (e', k)).count (e, b)) =
      if e' = e then ns.count b else 0 := by
  induction ns with
  | nil => simp
  | cons k ns ih =>
    simp only [List.map_cons, List.count_cons, ih]
    by_cases he : e' = e
    · subst he
      simp only [if_true, beq_iff_eq, Prod.mk.injEq, true_and, if_pos rfl]
    · simp [he, beq_iff_eq, Prod.mk.injEq]

lemma count_flat_pairs (l : List Event) (ns : List String) (e : Event)
    (b : String) :
    ((l.flatMap fun e' => ns.map fun k => (e', k)).count (e, b)) =
      l.count e * ns.count b := by
  induction l with
  | nil => simp
  | cons e' l ih =>
    simp only [List.flatMap_cons, List.count_append, ih, count_pair_map,
      List.count_cons, beq_iff_eq]
    by_cases he : e' = e
    · simp [he, Nat.add_mul]
      omega
    · simp [he]

lemma count_filter_ite {α : Type} [DecidableEq α] (p : α → Bool)
    (l : List α) (a : α) :
    (l.filter p).count a = if p a then l.count a else 0 := by
  by_cases h : p a = true
  · rw [if_pos h, List.count_filter h]
  · rw [if_neg h, List.count_eq_zero]
    intro hmem
    exact h (List.mem_filter.mp hmem).2

lemma count_checkAttempts (events : List Event) (ns : List String)
    (rd : List Int) (today : Date) (e : Event) (b : String) :
    (checkAttempts events ns rd today).count (e, b) =
      (rd.countP fun d => e.submission_deadline == some (today + d)) *
        (events.count e * ns.count b) := by
  induction rd with
  | nil => simp [checkAttempts]
  | cons d rd ih =>
    simp only [checkAttempts, List.flatMap_cons, List.count_append] at ih ⊢
    rw [count_flat_pairs, count_filter_ite, ih, List.countP_cons]
    by_cases hd : (e.submission_deadline == some (today + d)) = true
    · simp [hd, Nat.add_mul]
      omega
    · simp [hd]

lemma countP_nodup_unique (p : Int → Bool) :
    ∀ (rd : List Int), rd.Nodup →
      (∀ a b, p a = true → p b = true → a = b) →
      rd.countP p = if rd.any p then 1 else 0 := by
  intro rd
  induction rd with
  | nil => intro _ _; simp
  | cons d rd ih =>
    intro hnd huniq
    rw [List.nodup_cons] at hnd
    rw [List.countP_cons]
    cases hd : p d with
    | true =>
      have hz : rd.countP p = 0 := by
        rw [List.countP_eq_zero]
        intro x hx hpx
        exact hnd.1 (huniq x d hpx hd ▸ hx)
      simp [hd, hz]
    | false =>
      simp [hd, ih hnd.2 huniq]

-- ============================================================
-- Order instances for the SQL sort relations
-- ============================================================

instance : IsTotal Event eventLe := by
  constructor
  intro a b
  unfold eventLe
  cases a.submission_deadline <;> cases b.submission_deadline <;>
    simp [optDateLeB, decide_eq_true_eq]
  exact le_total _ _

instance : IsTrans Event eventLe := by
  constructor
  intro a b c h1 h2
  unfold eventLe at *
  cases ha : a.submission_deadline <;> cases hb : b.submission_deadline <;>
    cases hc : c.submission_deadline <;>
    rw [ha, hb] at h1 <;> rw [hb, hc] at h2 <;>
    simp_all [optDateLeB, decide_eq_true_eq]
  · exact le_trans h1 h2

-- ============================================================
-- Order lemmas and instances for the todo sort
-- ============================================================

lemma charListLeB_total : ∀ as bs,
    charListLeB as bs = true ∨ charListLeB bs as = true := by
  intro as
  induction as with
  | nil => intro bs; left; rfl
  | cons a as ih =>
    intro bs
    cases bs with
    | nil => right; rfl
    | cons b bs =>
      by_cases hab : a = b
      · subst hab
        rcases ih bs with h | h
        · left; simp [charListLeB, h]
        · right; simp [charListLeB, h]
      · rcases lt_trichotomy a b with h | h | h
        · left; simp [charListLeB, hab, h]
        · exact absurd h hab
        · right
          have hba : b ≠ a := fun hh => hab hh.symm
          simp [charListLeB, hba, h]

lemma charListLeB_trans : ∀ as bs cs, charListLeB as bs = true →
    charListLeB bs cs = true → charListLeB as cs = true := by
  intro as
  induction as with
  | nil => intro bs cs _ _; rfl
  | cons a as ih =>
    intro bs cs h1 h2
    cases bs with
    | nil => simp [charListLeB] at h1
    | cons b bs =>
      cases cs with
      | nil => simp [charListLeB] at h2
      | cons c cs =>
        simp only [charListLeB] at h1 h2 ⊢
        by_cases hab : a = b <;> by_cases hbc : b = c
        · subst hab; subst hbc
          simp only [if_pos rfl] at h1 h2 ⊢
          exact ih _ _ h1 h2
        · subst hab
          simp only [if_pos rfl] at h1
          simp only [if_neg hbc] at h2 ⊢
          exact h2
        · subst hbc
          simp only [if_neg hab] at h1 ⊢
          exact h1
        · simp only [if_neg hab] at h1
          simp only [if_neg hbc] at h2
          rw [decide_eq_true_eq] at h1 h2
          have hac : a < c := lt_trans h1 h2
          simp [if_neg (ne_of_lt hac), hac]

lemma optLt_trans : ∀ x y z : Option Date,
    optDateLtNullsLastB x y = true → optDateLtNullsLastB y z = true →
    optDateLtNullsLastB x z = true := by
  intro x y z h1 h2
  cases x <;> cases y <;> cases z <;>
    simp_all [optDateLtNullsLastB, decide_eq_true_eq]
  exact lt_trans h1 h2

lemma optLt_tri : ∀ x y : Option Date,
    optDateLtNullsLastB x y = true ∨ x = y ∨
      optDateLtNullsLastB y x = true := by
  intro x y
  cases x <;> cases y <;> simp [optDateLtNullsLastB, decide_eq_true_eq]
  exact lt_trichotomy _ _

instance : IsTotal Todo todoLe := by
  constructor
  intro a b
  unfold todoLe
  rcases optLt_tri a.due_date b.due_date with h | h | h
  · left; simp [h]
  · rcases charListLeB_total a.priority.data b.priority.data with hp | hp
    · left; simp [h, strLeB, hp]
    · right; simp [h, strLeB, hp]
  · right; simp [h]

instance : IsTrans Todo todoLe := by
  constructor
  intro a b c h1 h2
  unfold todoLe at *
  simp only [Bool.or_eq_true, Bool.and_eq_true] at h1 h2 ⊢
  rcases h1 with h1 | ⟨h1e, h1p⟩ <;> rcases h2 with h2 | ⟨h2e, h2p⟩
  · left; exact optLt_trans _ _ _ h1 h2
  · left; rw [beq_iff_eq] at h2e; rw [← h2e]; exact h1
  · left; rw [beq_iff_eq] at h1e; rw [h1e]; exact h2
  · right
    rw [beq_iff_eq] at h1e h2e
    constructor
    · rw [beq_iff_eq]; exact h1e.trans h2e
    · exact charListLeB_trans _ _ _ h1p h2p

-- ============================================================
-- Claim theorems: C1, C2, C3, C4, C10
-- ============================================================

/-- C1: for every event `e` occurring once in the store and every active
backend `b`, the deadline-check tick attempts exactly one reminder for
`(e, b)` when `e`'s deadline equals `today + d` for some configured offset
`d`, and zero otherwise (exact day equality; a null deadline never
matches). -/
theorem deadlineCheck_exact_day_match (cfg : Config) (events : List Event)
    (rd : List Int) (today : Date) (fails : Event → String → Bool)
    (e : Event) (b : String)
    (hrd : rd.Nodup) (he : events.count e = 1)
    (hb : (getNotifiers cfg).count b = 1) :
    (checkTick cfg events rd today fails).map (fun r => r.1.count (e, b)) =
      Except.ok (if rd.any (fun d =>
          e.submission_deadline == some (today + d)) then 1 else 0) := by
  rw [checkTick_eq]
  simp only [Except.map]
  rw [count_checkAttempts, he, hb,
    countP_nodup_unique _ rd hrd (by
      intro a b ha hb'
      rw [beq_iff_eq] at ha hb'
      have h2 : some (today + a) = some (today + b) := ha.symm.trans hb'
      exact add_left_cancel (Option.some.inj h2))]
  split <;> simp

/-- Witness for C1 at a concrete store: one event with deadline `17`,
`today = 10`, offsets `{7, 3, 1}`, Discord active — exactly one attempt. -/
theorem deadlineCheck_exact_day_match_witness :
    ([(7 : Int), 3, 1].Nodup ∧ [evCCS].count evCCS = 1 ∧
      (getNotifiers cfgDiscord).count "discord" = 1) ∧
    (checkTick cfgDiscord [evCCS] [7, 3, 1] 10 (fun _ _ => false)).map
        (fun r => r.1.count (evCCS, "discord")) =
      Except.ok (if [(7 : Int), 3, 1].any (fun d =>
          evCCS.submission_deadline == some (10 + d)) then 1 else 0) :=
  ⟨⟨by decide, by decide, by decide⟩,
   deadlineCheck_exact_day_match cfgDiscord [evCCS] [7, 3, 1] 10
     (fun _ _ => false) evCCS "discord" (by decide) (by decide) (by decide)⟩

/-- C2: both ticks attempt delivery for every backend (and, for the
deadline check, for every matching event × backend pair) no matter which
deliveries the failure oracle makes raise; failures are only recorded, and
the tick always returns `Except.ok` — no delivery error propagates. -/
theorem tick_failure_isolation (cfg : Config) (events : List Event)
    (todos : List Todo) (rd : List Int) (today : Date)
    (failsD : String → Bool) (failsC : Event → String → Bool) (m : Int)
    (h : rd.max? = some m) :
    digestTick cfg events todos rd today failsD =
      Except.ok ((getNotifiers cfg).map
          (fun k => (k, upcomingEvents events (m + 7) today,
            pendingTodos todos)),
        (getNotifiers cfg).filter failsD) ∧
    checkTick cfg events rd today failsC =
      Except.ok (checkAttempts events (getNotifiers cfg) rd today,
        (checkAttempts events (getNotifiers cfg) rd today).filter
          (fun a => failsC a.1 a.2)) :=
  ⟨digestTick_eq cfg events todos rd today failsD m h,
   checkTick_eq cfg events rd today failsC⟩

/-- Witness for C2: with Discord active and every delivery raising, both
ticks still return `ok` having attempted everything. -/
theorem tick_failure_isolation_witness :
    ([(7 : Int), 3, 1].max? = some 7) ∧
    (digestTick cfgDiscord [evCCS] [tdMedium] [7, 3, 1] 10 (fun _ => true) =
      Except.ok ((getNotifiers cfgDiscord).map
          (fun k => (k, upcomingEvents [evCCS] (7 + 7) 10,
            pendingTodos [tdMedium])),
        (getNotifiers cfgDiscord).filter (fun _ => true)) ∧
    checkTick cfgDiscord [evCCS] [7, 3, 1] 10 (fun _ _ => true) =
      Except.ok (checkAttempts [evCCS] (getNotifiers cfgDiscord) [7, 3, 1] 10,
        (checkAttempts [evCCS] (getNotifiers cfgDiscord) [7, 3, 1] 10).filter
          (fun a => (fun _ _ => true) a.1 a.2))) :=
  ⟨by decide,
   tick_failure_isolation cfgDiscord [evCCS] [tdMedium] [7, 3, 1] 10
     (fun _ => true) (fun _ _ => true) 7 (by decide)⟩

/-- C3: when no backend is active (credentials missing or partial), both
ticks perform zero delivery attempts and raise no error. -/
theorem tick_no_backends_noop (cfg : Config) (events : List Event)
    (todos : List Todo) (rd : List Int) (today : Date)
    (failsD : String → Bool) (failsC : Event → String → Bool)
    (h : getNotifiers cfg = []) :
    digestTick cfg events todos rd today failsD = Except.ok ([], []) ∧
    checkTick cfg events rd today failsC = Except.ok ([], []) := by
  constructor
  · unfold digestTick; simp [h]
  · unfold checkTick; simp [h]

/-- Witness for C3: a fully unset configuration activates no backend, and
both ticks are no-ops on concrete data. -/
theorem tick_no_backends_noop_witness :
    (getNotifiers cfgNone = []) ∧
    (digestTick cfgNone [evCCS] [tdMedium] [7, 3, 1] 10 (fun _ => true) =
        Except.ok ([], []) ∧
      checkTick cfgNone [evCCS] [7, 3, 1] 10 (fun _ _ => true) =
        Except.ok ([], [])) :=
  ⟨by decide,
   tick_no_backends_noop cfgNone [evCCS] [tdMedium] [7, 3, 1] 10
     (fun _ => true) (fun _ _ => true) (by decide)⟩

/-- C4: with `m` the configured maximum reminder offset, the digest's
event list contains exactly the stored events having a non-null
submission deadline within `[today, today + m + 7]`, and is sorted
ascending by deadline. -/
theorem digest_event_window_sorted (events : List Event) (rd : List Int)
    (today : Date) (m : Int) (_h : rd.max? = some m) :
    (∀ e, e ∈ upcomingEvents events (m + 7) today ↔
      e ∈ events ∧ ∃ dl, e.submission_deadline = some dl ∧
        today ≤ dl ∧ dl ≤ today + (m + 7)) ∧
    List.Sorted eventLe (upcomingEvents events (m + 7) today) := by
  constructor
  · intro e
    rw [upcomingEvents, List.mem_insertionSort, List.mem_filter]
    constructor
    · rintro ⟨hmem, hp⟩
      refine ⟨hmem, ?_⟩
      cases hdl : e.submission_deadline with
      | none => rw [hdl] at hp; simp at hp
      | some dl =>
        rw [hdl] at hp
        simp only [Bool.and_eq_true, decide_eq_true_eq] at hp
        exact ⟨dl, rfl, hp.1, hp.2⟩
    · rintro ⟨hmem, dl, hdl, h1, h2⟩
      refine ⟨hmem, ?_⟩
      rw [hdl]
      simp only [Bool.and_eq_true, decide_eq_true_eq]
      exact ⟨h1, h2⟩
  · exact List.sorted_insertionSort eventLe _

/-- Witness for C4 at the default offsets `{7, 3, 1}` and two concrete
events. -/
theorem digest_event_window_sorted_witness :
    (([(7 : Int), 3, 1].max? = some 7)) ∧
    ((∀ e, e ∈ upcomingEvents [evCCS, evNDSS] (7 + 7) 10 ↔
      e ∈ [evCCS, evNDSS] ∧ ∃ dl, e.submission_deadline = some dl ∧
        10 ≤ dl ∧ dl ≤ 10 + (7 + 7)) ∧
    List.Sorted eventLe (upcomingEvents [evCCS, evNDSS] (7 + 7) 10)) :=
  ⟨by decide,
   digest_event_window_sorted [evCCS, evNDSS] [7, 3, 1] 10 7 (by decide)⟩

/-- C10: when both the upcoming-deadlines list and the pending-todos list
are empty, the Discord digest builds no embeds and returns without posting
anything (result `none`, and no error). -/
theorem discord_digest_both_empty_no_post (today : Date) :
    discordSendDailyDigest today [] [] = Except.ok none := rfl

-- ============================================================
-- Claim theorems: C8, C9
-- ============================================================

/-- C8: vault export is idempotent — re-running `export_all` over an
unchanged entity set leaves every file of the vault (the entity documents
and the index included) with identical content. -/
theorem vault_export_idempotent (events : List Event)
    (researchers : List Researcher) (logs : List DailyLog) (fs : FS) :
    exportAll events researchers logs
        (exportAll events researchers logs fs) =
      exportAll events researchers logs fs := by
  funext p
  unfold exportAll
  rw [foldl_writeFile_apply, foldl_writeFile_apply]
  cases h : lastContent (exportOutputs events researchers logs) p <;> simp [h]

/-- C9 counterexample: researcher file names keep characters (here `.`)
that the claimed keep-alnum-space-hyphen-underscore sanitization drops, and
event file names additionally trim surrounding whitespace, so neither
equals the claimed derivation. -/
theorem filename_sanitize_spec_falsified :
    rsDot.name ≠ "" ∧
    researcherFilePath rsDot ≠
      "PPML-FHE-Dashboard/Researchers/" ++ specSanitize rsDot.name ++ ".md" ∧
    eventSafeTitle " A" ≠ specSanitize " A" := by
  refine ⟨by decide, by decide, by decide⟩

/-- C9 amended: the full characterization of every export file name — an
event's path ends in exactly the title's kept characters (alphanumerics,
spaces, hyphens, underscores) with surrounding whitespace trimmed, a
researcher's path ends in exactly the name with each `/` replaced by `-`
and every other character kept, and a daily log's path is its ISO date. -/
theorem filename_sanitize_code (e : Event) (r : Researcher)
    (l : DailyLog) :
    eventFilePath e = "PPML-FHE-Dashboard/Events/" ++
      pythonTitle e.category ++ "s/" ++
      String.mk (specEventStem e.title) ++ ".md" ∧
    researcherFilePath r = "PPML-FHE-Dashboard/Researchers/" ++
      String.mk (specSlashRename r.name.data) ++ ".md" ∧
    logFilePath l = "PPML-FHE-Dashboard/Daily Notes/" ++
      dateIso l.log_date ++ ".md" := by
  refine ⟨?_, ?_, rfl⟩
  · have hstem : (eventSafeTitle e.title).data = specEventStem e.title := by
      show pythonStripL (e.title.data.filter keepChar) = _
      unfold pythonStripL specEventStem
      rw [dropTrail_eq_strip]
      rfl
    unfold eventFilePath
    rw [show eventSafeTitle e.title = String.mk (specEventStem e.title) from
      by rw [← hstem]]
  · unfold researcherFilePath
    rw [show researcherSafeName r.name =
        String.mk (specSlashRename r.name.data) from by
      unfold researcherSafeName
      rw [map_eq_specSlashRename]]

-- ============================================================
-- Helper lemmas: substring inclusion and successful rendering
-- ============================================================

lemma strIn_of_mem (l : List String) (s : String) (h : s ∈ l) :
    strIn s (concatParts l) :=
  List.infix_of_mem_flatten (List.mem_map_of_mem String.data h)

lemma strIn_mem_part (l : List String) (x p : String) (hx : x ∈ l)
    (hp : strIn p x) : strIn p (concatParts l) :=
  hp.trans (strIn_of_mem l x hx)

lemma strIn_middle (a p b : String) : strIn p (a ++ p ++ b) := by
  unfold strIn
  rw [String.data_append, String.data_append]
  exact List.infix_append _ _ _

lemma foldlM_emailRowStep_ok (today : Date) :
    ∀ (l : List Event) (acc : String),
      (∀ e ∈ l, e.submission_deadline.isSome = true) →
      ∃ s, l.foldlM (emailRowStep today) acc = Except.ok s := by
  intro l
  induction l with
  | nil => intro acc _; exact ⟨acc, rfl⟩
  | cons e l ih =>
    intro acc h
    obtain ⟨dl, hdl⟩ := Option.isSome_iff_exists.mp (h e (by simp))
    rw [List.foldlM_cons]
    have hrow : emailRowStep today acc e = Except.ok (acc ++
        (match emailDeadlineRow today e with
         | Except.ok r => r
         | Except.error _ => "")) := by
      unfold emailRowStep emailDeadlineRow
      rw [hdl]
      rfl
    rw [hrow]
    obtain ⟨s, hs⟩ := ih _ (fun e' he' => h e' (by simp [he']))
    exact ⟨s, by simp only [Bind.bind, Except.bind]; exact hs⟩

lemma mapM_discordLine_ok (today : Date) :
    ∀ (l : List Event),
      (∀ e ∈ l, e.submission_deadline.isSome = true) →
      ∃ res, l.mapM (discordDigestLine today) = Except.ok res := by
  intro l
  induction l with
  | nil => intro _; exact ⟨[], rfl⟩
  | cons e l ih =>
    intro h
    obtain ⟨dl, hdl⟩ := Option.isSome_iff_exists.mp (h e (by simp))
    obtain ⟨res, hres⟩ := ih (fun e' he' => h e' (by simp [he']))
    have hline : discordDigestLine today e =
        Except.ok ("**" ++ e.title ++ "** — " ++ toString (dl - today) ++
          " days left (" ++ dateIso dl ++ ")") := by
      unfold discordDigestLine; rw [hdl]
    refine ⟨("**" ++ e.title ++ "** — " ++ toString (dl - today) ++
      " days left (" ++ dateIso dl ++ ")") :: res, ?_⟩
    rw [List.mapM_cons, hline]
    simp only [Bind.bind, Except.bind, hres]
    rfl

-- ============================================================
-- Claim theorems: C5
-- ============================================================

/-- C5 counterexample: two pending todos with equal (null) due dates, one
medium- and one low-priority.  The digest's todo list puts the low-priority
todo first (raw string order: "low" < "medium"), so it is not sorted by the
claimed priority-descending order. -/
theorem digest_todo_priority_order_falsified :
    (tdMedium.due_date = tdLow.due_date ∧
      specPriorityRank tdLow.priority < specPriorityRank tdMedium.priority) ∧
    pendingTodos [tdMedium, tdLow] = [tdLow, tdMedium] ∧
    ¬ List.Sorted specTodoLe (pendingTodos [tdMedium, tdLow]) := by
  refine ⟨by decide, by decide, ?_⟩
  intro hs
  have hrel := List.rel_of_sorted_cons hs tdMedium (by decide)
  revert hrel
  decide

/-- C5 amended: the digest's todo list contains exactly the todos with
status `pending` or `in_progress`, ordered by due date ascending with null
due dates last and ties broken by the raw priority string in ascending
lexicographic order ("high" < "low" < "medium") — so high first, but low
before medium, not priority-descending. -/
theorem digest_todo_list_order (todos : List Todo) :
    (∀ t, t ∈ pendingTodos todos ↔
      t ∈ todos ∧ (t.status = "pending" ∨ t.status = "in_progress")) ∧
    List.Sorted todoLe (pendingTodos todos) := by
  constructor
  · intro t
    rw [pendingTodos, List.mem_insertionSort, List.mem_filter]
    simp [beq_iff_eq]
  · exact List.sorted_insertionSort todoLe _

-- ============================================================
-- Claim theorems: C6, C7
-- ============================================================

set_option maxRecDepth 20000 in
/-- C6 counterexample: a Discord digest for two upcoming events and zero
pending todos posts a single embed titled "Upcoming Deadlines" — there is
no explicit no-pending-tasks section anywhere in the payload (the empty
half is omitted, not rendered as a "none" message). -/
theorem discord_digest_empty_half_omitted :
    (discordSendDailyDigest 10 [evCCS, evNDSS] []).map
        (fun o => o.map (fun p => p.2.map Embed.title)) =
      Except.ok (some ["Upcoming Deadlines"]) ∧
    ¬ strIn "No pending"
      (discordPayloadText (discordSendDailyDigest 10 [evCCS, evNDSS] [])) :=
  ⟨rfl, by decide⟩

/-- C6 amended: the email digest renders an explicit "none" message for an
empty half ("No pending tasks." / "No upcoming deadlines."), while the
Discord digest omits an empty half's section entirely — its payload for
events-with-no-todos is exactly one "Upcoming Deadlines" embed. -/
theorem digest_empty_half_rendering (today : Date) (evs : List Event)
    (ts : List Todo)
    (hev : ∀ e ∈ evs, e.submission_deadline.isSome = true) :
    (∃ s b, emailSendDailyDigest today evs [] = Except.ok (s, b) ∧
      strIn "<p>No pending tasks.</p>" b) ∧
    (∃ s b, emailSendDailyDigest today [] ts = Except.ok (s, b) ∧
      strIn "<p>No upcoming deadlines.</p>" b) ∧
    ((evs = [] ∧ discordSendDailyDigest today evs [] = Except.ok none) ∨
      (∃ d, discordSendDailyDigest today evs [] = Except.ok (some
        ("**Daily Digest — " ++ dateIso today ++ "**",
         [{ title := "Upcoming Deadlines", description := d,
            color := 0xFFAA00 }])))) := by
  refine ⟨?_, ?_, ?_⟩
  · obtain ⟨rows, hrows⟩ := foldlM_emailRowStep_ok today (evs.take 15) ""
      (fun e he => hev e (List.take_subset _ _ he))
    refine ⟨"[PPML Dashboard] Daily Digest — " ++ dateIso today,
      concatParts (emailDigestParts today rows "" 0), ?_, ?_⟩
    · unfold emailSendDailyDigest
      rw [hrows]
      simp only [Bind.bind, Except.bind]
      rfl
    · apply strIn_of_mem
      simp [emailDigestParts]
  · refine ⟨"[PPML Dashboard] Daily Digest — " ++ dateIso today,
      concatParts (emailDigestParts today ""
        ((ts.take 10).foldl (fun acc t => acc ++ emailTodoItem t) "")
        ts.length), ?_, ?_⟩
    · unfold emailSendDailyDigest
      simp only [List.take_nil, List.foldlM_nil, Bind.bind, Except.bind,
        pure]
      rfl
    · apply strIn_of_mem
      simp [emailDigestParts]
  · cases evs with
    | nil => exact Or.inl ⟨rfl, rfl⟩
    | cons e evs' =>
      obtain ⟨res, hres⟩ := mapM_discordLine_ok today ((e :: evs').take 10)
        (fun e' he' => hev e' (List.take_subset _ _ he'))
      refine Or.inr ⟨String.intercalate "\n" res, ?_⟩
      unfold discordSendDailyDigest
      rw [hres]
      simp only [Bind.bind, Except.bind]
      rfl

/-- Witness for the amended C6 at two concrete events with deadlines and
one concrete todo. -/
theorem digest_empty_half_rendering_witness :
    (∀ e ∈ [evCCS, evNDSS], e.submission_deadline.isSome = true) ∧
    ((∃ s b, emailSendDailyDigest 10 [evCCS, evNDSS] [] = Except.ok (s, b) ∧
      strIn "<p>No pending tasks.</p>" b) ∧
    (∃ s b, emailSendDailyDigest 10 [] [tdMedium] = Except.ok (s, b) ∧
      strIn "<p>No upcoming deadlines.</p>" b) ∧
    (([evCCS, evNDSS] = ([] : List Event) ∧
        discordSendDailyDigest 10 [evCCS, evNDSS] [] = Except.ok none) ∨
      (∃ d, discordSendDailyDigest 10 [evCCS, evNDSS] [] = Except.ok (some
        ("**Daily Digest — " ++ dateIso 10 ++ "**",
         [{ title := "Upcoming Deadlines", description := d,
            color := 0xFFAA00 }]))))) :=
  ⟨by decide, digest_empty_half_rendering 10 [evCCS, evNDSS] [tdMedium]
    (by decide)⟩

set_option maxRecDepth 20000 in
/-- C7 counterexample: an event with non-empty relevance tags whose tag
text occurs nowhere else — the email reminder succeeds but its body does
not contain the tags, so the email payload omits relevance tags. -/
theorem email_reminder_tags_absent :
    evTagged.relevance_tags ≠ "" ∧
    emailSendDeadlineReminder 10 evTagged =
      Except.ok ("[PPML Dashboard] Deadline: CCS (7 days left)",
        emailBodyOf (emailSendDeadlineReminder 10 evTagged)) ∧
    ¬ strIn evTagged.relevance_tags
      (emailBodyOf (emailSendDeadlineReminder 10 evTagged)) :=
  ⟨by decide, rfl, by decide⟩

/-- C7 amended: for every event with a deadline, the Discord reminder
embed carries title, category, days-remaining and deadline date, the
website URL when present and a Tags field when present; the email reminder
body carries title, deadline date, days-remaining, category and the
website link when present — but never the relevance tags (see the
counterexample).  Neither raises for a missing optional field. -/
theorem reminder_payload_contents (today : Date) (e : Event) (dl : Date)
    (h : e.submission_deadline = some dl) :
    (∃ em, discordSendDeadlineReminder today e = Except.ok em ∧
      em.title = "Deadline Reminder: " ++ e.title ∧
      ("Category", pythonTitle e.category) ∈ em.fieldList ∧
      ("Days Left", toString (dl - today)) ∈ em.fieldList ∧
      ("Deadline", dateIso dl) ∈ em.fieldList ∧
      (e.website ≠ "" → em.url = some e.website) ∧
      (e.relevance_tags ≠ "" → ("Tags", e.relevance_tags) ∈ em.fieldList)) ∧
    (∃ subj body, emailSendDeadlineReminder today e = Except.ok (subj, body) ∧
      strIn e.title body ∧ strIn (dateIso dl) body ∧
      strIn (toString (dl - today)) body ∧
      strIn (pythonTitle e.category) body ∧
      (e.website ≠ "" → strIn e.website body)) := by
  constructor
  · refine ⟨_, by unfold discordSendDeadlineReminder; rw [h],
      ?_, ?_, ?_, ?_, ?_, ?_⟩ <;>
      by_cases hw : e.website = "" <;> by_cases ht : e.relevance_tags = "" <;>
      simp [hw, ht]
  · refine ⟨_, concatParts (emailReminderParts today e dl),
      by unfold emailSendDeadlineReminder; rw [h], ?_, ?_, ?_, ?_, ?_⟩
    · apply strIn_of_mem; simp [emailReminderParts]
    · apply strIn_of_mem; simp [emailReminderParts]
    · apply strIn_of_mem; simp [emailReminderParts]
    · apply strIn_of_mem; simp [emailReminderParts]
    · intro hw
      apply strIn_mem_part _
        ("<p><a href=\x27" ++ e.website ++ "\x27>Visit website</a></p>")
      · simp [emailReminderParts, hw]
      · exact strIn_middle _ _ _

/-- Witness for the amended C7 at a concrete event carrying a website and
tags. -/
theorem reminder_payload_contents_witness :
    (evNDSS.submission_deadline = some 20) ∧
    ((∃ em, discordSendDeadlineReminder 10 evNDSS = Except.ok em ∧
      em.title = "Deadline Reminder: " ++ evNDSS.title ∧
      ("Category", pythonTitle evNDSS.category) ∈ em.fieldList ∧
      ("Days Left", toString ((20 : Int) - 10)) ∈ em.fieldList ∧
      ("Deadline", dateIso 20) ∈ em.fieldList ∧
      (evNDSS.website ≠ "" → em.url = some evNDSS.website) ∧
      (evNDSS.relevance_tags ≠ "" →
        ("Tags", evNDSS.relevance_tags) ∈ em.fieldList)) ∧
    (∃ subj body,
      emailSendDeadlineReminder 10 evNDSS = Except.ok (subj, body) ∧
      strIn evNDSS.title body ∧ strIn (dateIso 20) body ∧
      strIn (toString ((20 : Int) - 10)) body ∧
      strIn (pythonTitle evNDSS.category) body ∧
      (evNDSS.website ≠ "" → strIn evNDSS.website body))) :=
  ⟨by decide, reminder_payload_contents 10 evNDSS 20 (by decide)⟩

end Dashboard
